import Mathlib

/-!
Verification development for the streaming-pipeline-core repository.

The central data structure is `CircularStreamBuffer`
(src/src/framework/CircularStreamBuffer.ts), embedded here as `CircBuf`:
a fixed byte array with `head`/`tail`/`current` cursors, a global position
counter, a sticky EOF flag and a `filled` counter.  JavaScript numbers that
can go negative in the source (`filled` is decremented by `autoCompact`
without a floor) are modelled as `Int`; array indices, which are always
taken modulo the array length in the source, are modelled as `Nat`.

On top of the buffer sits the `StreamingPipeline.processStream` loop
(src/src/orchestrator/StreamingPipeline.ts): renderer lookup, initial
fill + markEOF for in-memory inputs, and the main while loop that selects
a processor, renders its chunks, advances by `max(1, requested)`, and
refills.  A processor's `process` call that may throw is embedded as a
function returning `Except String ProcessResult`; the async generator's
yielded outputs are collected into a `List String`, and the unbounded
`while` loop is modelled by a step function iterated with explicit fuel.
-/

/-- Embeds the private state of `CircularStreamBuffer`
(src/src/framework/CircularStreamBuffer.ts lines 17-34).  `buffer` is the
backing `Uint8Array`, byte values kept as `Nat`.  `filled` is `Int`
because the source can drive it negative (see `autoCompact`). -/
structure CircBuf where
  maxLookBehind : Nat
  maxLookAhead : Nat
  buffer : List Nat
  head : Nat
  tail : Nat
  current : Nat
  globalPos : Nat
  eof : Bool
  filled : Int
deriving DecidableEq

namespace CircBuf

/-- `this.buffer.length` in the source. -/
def len (s : CircBuf) : Nat := s.buffer.length

/-- The constructor (lines 26-34): allocates `maxLookBehind + 1 + maxLookAhead`
zeroed bytes, all cursors at zero. -/
def mkBuffer (lookBehindSize lookAheadSize : Nat) : CircBuf :=
  { maxLookBehind := lookBehindSize
    maxLookAhead := lookAheadSize
    buffer := List.replicate (lookBehindSize + 1 + lookAheadSize) 0
    head := 0
    tail := 0
    current := 0
    globalPos := 0
    eof := false
    filled := 0 }

/-- `getAvailableBehind` (lines 174-180):
`current >= tail ? current - tail : current + (len - tail)`. -/
def getAvailableBehind (s : CircBuf) : Nat :=
  if s.tail ≤ s.current then s.current - s.tail
  else s.current + (s.len - s.tail)

/-- `getAvailableAhead` (lines 182-190). -/
def getAvailableAhead (s : CircBuf) : Nat :=
  if s.current < s.head then s.head - s.current - 1
  else if s.head < s.current then (s.len - s.current - 1) + s.head
  else if 0 < s.filled then s.len - 1 else 0

/-- `canAdvance` (lines 102-104): `getAvailableAhead() > 0 || this.eof`. -/
def canAdvance (s : CircBuf) : Bool :=
  decide (0 < getAvailableAhead s) || s.eof

/-- `peek` (lines 39-42): `null` when `filled === 0`, else `buffer[current]`. -/
def peek (s : CircBuf) : Option Nat :=
  if s.filled = 0 then none else some (s.buffer.getD s.current 0)

/-- The clamped element count of `lookAhead(distance)` (lines 67-70):
`min(min(distance, maxLookAhead), getAvailableAhead())`. -/
def lookAheadCount (distance : Nat) (s : CircBuf) : Nat :=
  min (min distance s.maxLookAhead) (getAvailableAhead s)

/-- The backing-array indices read by `lookAhead` (line 77):
`(current + 1 + i) % len` for `i < lookDistance`. -/
def lookAheadIndices (distance : Nat) (s : CircBuf) : List Nat :=
  (List.range (lookAheadCount distance s)).map
    (fun i => (s.current + 1 + i) % s.len)

/-- `lookAhead` (lines 67-82). -/
def lookAhead (distance : Nat) (s : CircBuf) : List Nat :=
  if lookAheadCount distance s = 0 then []
  else (lookAheadIndices distance s).map (fun p => s.buffer.getD p 0)

/-- `lookAhead` as a function of the distance, for stating that a state
change preserves every lookahead view at once. -/
def lookAheadFun (s : CircBuf) : Nat → List Nat := fun d => lookAhead d s

/-- The clamped element count of `lookBehind(distance)` (lines 47-50). -/
def lookBehindCount (distance : Nat) (s : CircBuf) : Nat :=
  min (min distance s.maxLookBehind) (getAvailableBehind s)

/-- The start slot of `lookBehind` (line 54):
`(current - lookDistance + len) % len`. -/
def lookBehindStart (distance : Nat) (s : CircBuf) : Nat :=
  (s.current + s.len - lookBehindCount distance s) % s.len

/-- The backing-array indices read by `lookBehind` (line 58). -/
def lookBehindIndices (distance : Nat) (s : CircBuf) : List Nat :=
  (List.range (lookBehindCount distance s)).map
    (fun i => (lookBehindStart distance s + i) % s.len)

/-- `lookBehind` (lines 47-62). -/
def lookBehind (distance : Nat) (s : CircBuf) : List Nat :=
  if lookBehindCount distance s = 0 then []
  else (lookBehindIndices distance s).map (fun p => s.buffer.getD p 0)

/-- `fill` (lines 109-115): writes bytes at `head` while `filled < len`,
silently dropping the rest. -/
def fill (data : List Nat) (s : CircBuf) : CircBuf :=
  match data with
  | [] => s
  | b :: rest =>
    if s.filled < (s.len : Int) then
      fill rest
        { s with
          buffer := s.buffer.set s.head b
          head := (s.head + 1) % s.len
          filled := s.filled + 1 }
    else s

/-- `markEOF` (lines 120-122). -/
def markEOF (s : CircBuf) : CircBuf := { s with eof := true }

/-- The cursor move inside `advance` (lines 90-91):
`current = (current + 1) % len; globalPos++`. -/
def moveCursor (s : CircBuf) : CircBuf :=
  { s with current := (s.current + 1) % s.len, globalPos := s.globalPos + 1 }

/-- `autoCompact` (lines 192-200): if more than `maxLookBehind` bytes lie
behind `current`, move `tail` forward past the excess and decrement
`filled` by it (`filled` may go negative, hence `Int`). -/
def autoCompact (s : CircBuf) : CircBuf :=
  let behind := getAvailableBehind s
  if s.maxLookBehind < behind then
    { s with
      tail := (s.tail + (behind - s.maxLookBehind)) % s.len
      filled := s.filled - ((behind : Int) - (s.maxLookBehind : Int)) }
  else s

/-- `advance` (lines 87-97): returns whether it moved, plus the new state. -/
def advance (s : CircBuf) : Bool × CircBuf :=
  if canAdvance s then (true, autoCompact (moveCursor s)) else (false, s)

/-- `needsRefill` (lines 155-157): `!eof && availableAhead < maxLookAhead / 2`.
The source's floating-point halving is rendered exactly as
`2 * availableAhead < maxLookAhead`. -/
def needsRefill (s : CircBuf) : Bool :=
  !s.eof && decide (2 * getAvailableAhead s < s.maxLookAhead)

/-- `reset` (lines 162-170). -/
def reset (s : CircBuf) : CircBuf :=
  { s with
    buffer := List.replicate s.len 0
    head := 0
    tail := 0
    current := 0
    globalPos := 0
    eof := false
    filled := 0 }

/-- The excess dropped by `autoCompact` (line 196), zero when no compaction
happens. -/
def compactExcess (s : CircBuf) : Nat :=
  getAvailableBehind s - s.maxLookBehind

/-- The backing-array slots whose data `autoCompact` evicts from the
retained window: `tail + k (mod len)` for `k` below the excess. -/
def droppedSlots (s : CircBuf) : List Nat :=
  (List.range (compactExcess s)).map (fun k => (s.tail + k) % s.len)

/-- Ring distance of slot `p` behind the cursor of `s`. -/
def behindDist (s : CircBuf) (p : Nat) : Nat :=
  (s.current + s.len - p) % s.len

end CircBuf

/-- `BufferState` (src/src/framework/CircularStreamBuffer.ts lines 7-15). -/
structure BufferState where
  size : Nat
  position : Nat
  available : Int
  canLookBehind : Nat
  canLookAhead : Nat
  isEOF : Bool
  globalPosition : Nat
deriving DecidableEq

namespace CircBuf

/-- `getState` (lines 127-137). -/
def getState (s : CircBuf) : BufferState :=
  { size := s.len
    position := s.current
    available := s.filled
    canLookBehind := getAvailableBehind s
    canLookAhead := getAvailableAhead s
    isEOF := s.eof
    globalPosition := s.globalPos }

end CircBuf

/-- One operation of the buffer's public mutating interface, for stating
invariants over arbitrary operation sequences. -/
inductive BufOp where
  | fillOp (data : List Nat)
  | advanceOp
  | markEOFOp
  | resetOp

/-- Applies one public operation. -/
def applyOp (op : BufOp) (s : CircBuf) : CircBuf :=
  match op with
  | .fillOp data => CircBuf.fill data s
  | .advanceOp => (CircBuf.advance s).2
  | .markEOFOp => CircBuf.markEOF s
  | .resetOp => CircBuf.reset s

/-- Applies a sequence of public operations, oldest first. -/
def applyOps (ops : List BufOp) (s : CircBuf) : CircBuf :=
  match ops with
  | [] => s
  | op :: rest => applyOps rest (applyOp op s)

/-- `StreamChunk` (src/src/framework/streaming-interfaces.ts), restricted
to the fields the orchestrator loop inspects: a type tag and the string
content handed to the renderer. -/
structure Chunk where
  type : String
  content : String
deriving DecidableEq

/-- The value returned by `IStreamProcessor.process`: emitted chunks plus
the requested advance distance (a JavaScript number, so possibly zero or
negative — modelled as `Int`). -/
structure ProcessResult where
  chunks : List Chunk
  advance : Int

/-- `IStreamProcessor` as used by the loop
(src/src/orchestrator/StreamingPipeline.ts lines 75-96): a predicate
`canProcess` and a transform `process` that may throw, embedded as
`Except String`.  The context handed to both is the buffer snapshot
itself (`createContext`, lines 231-249, is a pure projection of it). -/
structure StreamProcessor where
  name : String
  priority : Int
  canProcess : CircBuf → Bool
  process : CircBuf → Except String ProcessResult

/-- `IStreamRenderer` as used by the loop: a format key and `renderChunk`. -/
structure StreamRenderer where
  format : String
  renderChunk : Chunk → String

/-- `registerRenderer` (lines 149-154): `Map.set` keyed by the renderer's
format — replaces an existing entry, else appends. -/
def setRenderer (rs : List (String × StreamRenderer)) (r : StreamRenderer) :
    List (String × StreamRenderer) :=
  match rs with
  | [] => [(r.format, r)]
  | (k, v) :: rest =>
    if k = r.format then (r.format, r) :: rest
    else (k, v) :: setRenderer rest r

/-- `getRenderer` (lines 260-266): `Map.get`, throwing
`No renderer found for format: <format>` when absent. -/
def getRenderer (rs : List (String × StreamRenderer)) (format : String) :
    Except String StreamRenderer :=
  match List.lookup format rs with
  | some r => Except.ok r
  | none => Except.error ("No renderer found for format: " ++ format)

/-- `findProcessor` (lines 251-258): first processor in the registered
(priority-sorted) list whose predicate accepts the context. -/
def findProcessor (ps : List StreamProcessor) (s : CircBuf) :
    Option StreamProcessor :=
  match ps with
  | [] => none
  | p :: rest => if p.canProcess s then some p else findProcessor rest s

/-- The render-and-yield loop over a result's chunks (lines 82-88): each
chunk is rendered and yielded only when the rendered string is truthy,
i.e. non-empty. -/
def renderOutputs (r : StreamRenderer) (chunks : List Chunk) : List String :=
  match chunks with
  | [] => []
  | c :: rest =>
    let output := r.renderChunk c
    if output = "" then renderOutputs r rest
    else output :: renderOutputs r rest

/-- `Math.max(1, result.advance)` (line 91) as an advance-call count. -/
def safeAdvance (d : Int) : Nat := (max 1 d).toNat

/-- The advance for-loop (lines 92-94) over a fixed iteration budget:
returns the final buffer, the number of `advance()` calls made, and
whether the loop exited early because a call returned false. -/
def advanceLoop (n : Nat) (s : CircBuf) : CircBuf × Nat × Bool :=
  match n with
  | 0 => (s, 0, false)
  | m + 1 =>
    let r := CircBuf.advance s
    if r.1 then
      let rest := advanceLoop m r.2
      (rest.1, rest.2.1 + 1, rest.2.2)
    else (r.2, 1, true)

/-- `fillBuffer` for an in-memory input (lines 187-198): fill everything,
then mark EOF. -/
def fillBufferStr (input : List Nat) (s : CircBuf) : CircBuf :=
  CircBuf.markEOF (CircBuf.fill input s)

/-- The conditional refill at lines 102-105 (with `autoRefill` left at its
default, i.e. enabled).  For an in-memory input a refill re-runs
`fillBuffer` on the same input. -/
def refillStep (input : List Nat) (s : CircBuf) : CircBuf :=
  if CircBuf.needsRefill s then fillBufferStr input s else s

/-- The `while` condition at line 70: `!getState().isEOF || canAdvance()`. -/
def loopCond (s : CircBuf) : Bool :=
  !(CircBuf.getState s).isEOF || CircBuf.canAdvance s

/-- One iteration of the main processing loop body (lines 70-118):
returns the outputs yielded during the iteration, the buffer state after
it, and whether the iteration executed a `break` out of the while loop.
A throwing processor lands in the catch block: no output, one forced
`advance()` (breaking out when it fails), and no refill, since the refill
statement sits inside the `try`. -/
def loopIter (ps : List StreamProcessor) (r : StreamRenderer)
    (input : List Nat) (s : CircBuf) : List String × CircBuf × Bool :=
  match findProcessor ps s with
  | some p =>
    match p.process s with
    | .ok result =>
      let outs := renderOutputs r result.chunks
      let s1 := (advanceLoop (safeAdvance result.advance) s).1
      (outs, refillStep input s1, false)
    | .error _ =>
      let a := CircBuf.advance s
      ([], a.2, !a.1)
  | none =>
    let a := CircBuf.advance s
    if a.1 then ([], refillStep input a.2, false) else ([], a.2, true)

/-- The main loop run to completion under a fuel bound, collecting every
yielded output in order. -/
def runLoop (fuel : Nat) (ps : List StreamProcessor) (r : StreamRenderer)
    (input : List Nat) (s : CircBuf) : List String :=
  match fuel with
  | 0 => []
  | n + 1 =>
    if loopCond s then
      let step := loopIter ps r input s
      if step.2.2 then step.1 else step.1 ++ runLoop n ps r input step.2.1
    else []

/-- One observable step of the while loop for termination analysis:
`none` when the loop has exited (condition false or a `break`), otherwise
the state at the next condition check. -/
def loopStep (ps : List StreamProcessor) (r : StreamRenderer)
    (input : List Nat) (s : CircBuf) : Option CircBuf :=
  if loopCond s then
    let step := loopIter ps r input s
    if step.2.2 then none else some step.2.1
  else none

/-- Iterates `loopStep` from a start state: `some` exactly when the while
loop is still running after `n` iterations. -/
def iterateLoop (ps : List StreamProcessor) (r : StreamRenderer)
    (input : List Nat) (s : CircBuf) : Nat → Option CircBuf
  | 0 => some s
  | n + 1 =>
    match iterateLoop ps r input s n with
    | some t => loopStep ps r input t
    | none => none

/-- `processStream` (lines 40-129) for an in-memory input: renderer lookup
first (throwing on a missing format before the buffer is created or
filled), then initial fill + markEOF, then the main loop. `lookBehindSize`
and `lookAheadSize` come from the options/defaults. -/
def processStream (rs : List (String × StreamRenderer)) (format : String)
    (ps : List StreamProcessor) (input : List Nat)
    (lookBehindSize lookAheadSize fuel : Nat) : Except String (List String) :=
  match getRenderer rs format with
  | .error e => Except.error e
  | .ok r =>
    Except.ok (runLoop fuel ps r input
      (fillBufferStr input (CircBuf.mkBuffer lookBehindSize lookAheadSize)))

/-! ## Helper lemmas -/

/-- A value below `2 * n` reduces modulo `n` by at most one subtraction. -/
theorem mod_two_cases (x n : Nat) (h : x < 2 * n) :
    x % n = if x < n then x else x - n := by
  split_ifs with h1
  · exact Nat.mod_eq_of_lt h1
  · rw [Nat.mod_eq_sub_mod (Nat.le_of_not_lt h1)]
    exact Nat.mod_eq_of_lt (by omega)

theorem fill_buffer_length (data : List Nat) (s : CircBuf) :
    (CircBuf.fill data s).buffer.length = s.buffer.length := by
  induction data generalizing s with
  | nil => rfl
  | cons b rest ih =>
    unfold CircBuf.fill
    split_ifs
    · rw [ih]; simp
    · rfl

theorem applyOp_buffer_length (op : BufOp) (s : CircBuf) :
    (applyOp op s).buffer.length = s.buffer.length := by
  cases op with
  | fillOp data => exact fill_buffer_length data s
  | advanceOp =>
    simp only [applyOp, CircBuf.advance, CircBuf.autoCompact, CircBuf.moveCursor]
    split_ifs <;> rfl
  | markEOFOp => rfl
  | resetOp => simp [applyOp, CircBuf.reset, CircBuf.len]

theorem applyOps_buffer_length (ops : List BufOp) (s : CircBuf) :
    (applyOps ops s).buffer.length = s.buffer.length := by
  induction ops generalizing s with
  | nil => rfl
  | cons op rest ih => rw [applyOps, ih, applyOp_buffer_length]

/-! ## Claim C4 -/

/-- Claim C4: for every buffer constructed with lookBehindSize `B` and
lookAheadSize `A` and every sequence of `fill`/`advance`/`markEOF`/`reset`
operations, the backing byte storage has size exactly `B + 1 + A`, and
`getState().size` reports that same constant. -/
theorem c4_bounded_storage (B A : Nat) (ops : List BufOp) :
    (applyOps ops (CircBuf.mkBuffer B A)).buffer.length = B + 1 + A
    ∧ (CircBuf.getState (applyOps ops (CircBuf.mkBuffer B A))).size = B + 1 + A := by
  have h : (applyOps ops (CircBuf.mkBuffer B A)).buffer.length = B + 1 + A := by
    rw [applyOps_buffer_length]; simp [CircBuf.mkBuffer]
  exact ⟨h, h⟩

/-! ## Claim C6 -/

/-- Claim C6: for every `n` (including `n` above the configured maximum)
and every buffer state, `lookAhead(n)` returns at most
`min(n, maxLookAhead)` bytes, every backing-array index it reads is in
bounds, and the analogous clamping holds for `lookBehind(n)` with
`maxLookBehind`.  (Both functions are total, so no error is ever raised.) -/
theorem c6_look_clamping (s : CircBuf) (n : Nat) :
    (CircBuf.lookAhead n s).length ≤ min n s.maxLookAhead
    ∧ (CircBuf.lookBehind n s).length ≤ min n s.maxLookBehind
    ∧ (0 < s.len →
        (CircBuf.lookAheadIndices n s).all (fun p => decide (p < s.len)) = true
        ∧ (CircBuf.lookBehindIndices n s).all (fun p => decide (p < s.len)) = true) := by
  refine ⟨?_, ?_, fun hlen => ⟨?_, ?_⟩⟩
  · unfold CircBuf.lookAhead
    split_ifs with h
    · simp
    · simp only [CircBuf.lookAheadIndices, List.length_map, List.length_range]
      exact min_le_left _ _
  · unfold CircBuf.lookBehind
    split_ifs with h
    · simp
    · simp only [CircBuf.lookBehindIndices, List.length_map, List.length_range]
      exact min_le_left _ _
  · rw [List.all_eq_true]
    intro p hp
    simp only [CircBuf.lookAheadIndices, List.mem_map, List.mem_range] at hp
    obtain ⟨k, _, rfl⟩ := hp
    exact decide_eq_true (Nat.mod_lt _ hlen)
  · rw [List.all_eq_true]
    intro p hp
    simp only [CircBuf.lookBehindIndices, List.mem_map, List.mem_range] at hp
    obtain ⟨k, _, rfl⟩ := hp
    exact decide_eq_true (Nat.mod_lt _ hlen)

/-- Witness for C6 at a concrete state and an over-large request. -/
theorem c6_look_clamping_witness :
    (CircBuf.lookAhead 100 (CircBuf.markEOF (CircBuf.fill [1, 2] (CircBuf.mkBuffer 2 3)))).length
        ≤ min 100 (CircBuf.markEOF (CircBuf.fill [1, 2] (CircBuf.mkBuffer 2 3))).maxLookAhead
    ∧ (CircBuf.lookBehind 100 (CircBuf.markEOF (CircBuf.fill [1, 2] (CircBuf.mkBuffer 2 3)))).length
        ≤ min 100 (CircBuf.markEOF (CircBuf.fill [1, 2] (CircBuf.mkBuffer 2 3))).maxLookBehind
    ∧ ((CircBuf.lookAheadIndices 100 (CircBuf.markEOF (CircBuf.fill [1, 2] (CircBuf.mkBuffer 2 3)))).all
        (fun p => decide (p < (CircBuf.markEOF (CircBuf.fill [1, 2] (CircBuf.mkBuffer 2 3))).len)) = true
      ∧ (CircBuf.lookBehindIndices 100 (CircBuf.markEOF (CircBuf.fill [1, 2] (CircBuf.mkBuffer 2 3)))).all
        (fun p => decide (p < (CircBuf.markEOF (CircBuf.fill [1, 2] (CircBuf.mkBuffer 2 3))).len)) = true) := by
  have h := c6_look_clamping (CircBuf.markEOF (CircBuf.fill [1, 2] (CircBuf.mkBuffer 2 3))) 100
  exact ⟨h.1, h.2.1, h.2.2 (by decide)⟩

/-! ## Claim C2 -/

/-- Claim C2 (divergence witness): with EOF marked and no unread data the
stream is truly exhausted — `getAvailableAhead` is `0` and nothing was
ever filled — yet `canAdvance()` returns `true`, because the source
computes `getAvailableAhead() > 0 || this.eof`.  The spec requires `false`
exactly here, and the repository's own unit test (`should handle EOF
correctly`) drains the buffer with `while (canAdvance()) advance()` and
then expects `canAdvance()` to be `false`. -/
theorem c2_canAdvance_exhausted_eval :
    CircBuf.canAdvance (CircBuf.markEOF (CircBuf.mkBuffer 10 20)) = true
    ∧ CircBuf.getAvailableAhead (CircBuf.markEOF (CircBuf.mkBuffer 10 20)) = 0
    ∧ (CircBuf.markEOF (CircBuf.mkBuffer 10 20)).filled = 0
    ∧ (CircBuf.markEOF (CircBuf.mkBuffer 10 20)).eof = true := by
  decide

/-! ## Claim C3 -/

/-- A reachable state: one byte `65` filled into a `(1, 1)` buffer, EOF
marked, and the cursor advanced once — past the only byte the stream ever
contained. -/
def c3state : CircBuf :=
  (CircBuf.advance (CircBuf.markEOF (CircBuf.fill [65] (CircBuf.mkBuffer 1 1)))).2

/-- Claim C3 is false on the code: in `c3state` the cursor sits at global
offset `1` of a fully consumed one-byte stream, so no data is present at
the cursor position (slot `1` of the backing array was never written), yet
`peek()` returns `some 0` — the zero-initialised backing byte — rather
than `none`, because `peek` only checks `filled === 0`, not whether the
cursor slot holds data. -/
theorem c3_peek_unfilled_counterexample :
    CircBuf.peek c3state = some 0
    ∧ c3state.globalPos = 1
    ∧ c3state.eof = true
    ∧ CircBuf.peek c3state ≠ some 65 := by
  decide

/-- Claim C3 amended: `peek()` returns `none` exactly when the buffer
holds no bytes at all (`filled = 0`); whenever any data is present
anywhere in the buffer it returns the byte stored at the backing-array
slot `current` — the first filled byte right after a fresh fill — even
when that slot itself was never written. -/
theorem c3_peek_amended :
    (∀ s : CircBuf, (CircBuf.peek s).isNone = decide (s.filled = 0))
    ∧ (∀ B A d : Nat, CircBuf.peek (CircBuf.fill [d] (CircBuf.mkBuffer B A)) = some d) := by
  constructor
  · intro s
    unfold CircBuf.peek
    split_ifs with h <;> simp [h]
  · intro B A d
    have hsucc : B + 1 + A = (B + A) + 1 := by omega
    unfold CircBuf.fill
    rw [if_pos]
    · simp [CircBuf.fill, CircBuf.peek, CircBuf.mkBuffer, hsucc, List.replicate_succ]
    · simp [CircBuf.mkBuffer, CircBuf.len]
      positivity

/-! ## Claim C1 -/

theorem advance_eof (s : CircBuf) : (CircBuf.advance s).2.eof = s.eof := by
  simp only [CircBuf.advance, CircBuf.autoCompact, CircBuf.moveCursor]
  split_ifs <;> rfl

theorem advance_fst_of_eof (s : CircBuf) (h : s.eof = true) :
    (CircBuf.advance s).1 = true := by
  simp only [CircBuf.advance, CircBuf.canAdvance, h, Bool.or_true, if_true]

theorem advanceLoop_eof (n : Nat) (s : CircBuf) :
    (advanceLoop n s).1.eof = s.eof := by
  induction n generalizing s with
  | zero => rfl
  | succ m ih =>
    simp only [advanceLoop]
    split_ifs with h
    · rw [ih, advance_eof]
    · have : (CircBuf.advance s).2 = s := by
        unfold CircBuf.advance at h ⊢
        split_ifs at h ⊢ <;> simp_all
      rw [this]

theorem refillStep_eof (input : List Nat) (s : CircBuf) (h : s.eof = true) :
    (refillStep input s).eof = true := by
  unfold refillStep
  split_ifs
  · rfl
  · exact h

theorem loopIter_of_eof (ps : List StreamProcessor) (r : StreamRenderer)
    (input : List Nat) (s : CircBuf) (h : s.eof = true) :
    (loopIter ps r input s).2.2 = false ∧ (loopIter ps r input s).2.1.eof = true := by
  have hado : (CircBuf.advance s).1 = true := advance_fst_of_eof s h
  have hade : (CircBuf.advance s).2.eof = true := by rw [advance_eof]; exact h
  cases hfp : findProcessor ps s with
  | none =>
    simp only [loopIter, hfp, hado, if_true]
    exact ⟨trivial, refillStep_eof _ _ hade⟩
  | some p =>
    cases hpr : p.process s with
    | ok res =>
      simp only [loopIter, hfp, hpr]
      exact ⟨trivial, refillStep_eof _ _ (by rw [advanceLoop_eof]; exact h)⟩
    | error e =>
      simp only [loopIter, hfp, hpr, hado]
      exact ⟨rfl, hade⟩

theorem loopStep_of_eof (ps : List StreamProcessor) (r : StreamRenderer)
    (input : List Nat) (s : CircBuf) (h : s.eof = true) :
    ∃ t, loopStep ps r input s = some t ∧ t.eof = true := by
  have hcond : loopCond s = true := by
    unfold loopCond CircBuf.canAdvance
    rw [h]
    simp
  obtain ⟨hbrk, heof⟩ := loopIter_of_eof ps r input s h
  refine ⟨(loopIter ps r input s).2.1, ?_, heof⟩
  simp [loopStep, hcond, hbrk]

theorem iterateLoop_alive_of_eof (ps : List StreamProcessor) (r : StreamRenderer)
    (input : List Nat) (s : CircBuf) (h : s.eof = true) :
    ∀ n, ∃ t, iterateLoop ps r input s n = some t ∧ t.eof = true := by
  intro n
  induction n with
  | zero => exact ⟨s, rfl, h⟩
  | succ m ih =>
    obtain ⟨t, hsome, heof⟩ := ih
    obtain ⟨u, hstep, hueof⟩ := loopStep_of_eof ps r input t heof
    exact ⟨u, by simp [iterateLoop, hsome, hstep], hueof⟩

/-- Claim C1 is false on the code: `processStream` on the empty string
never terminates.  After the initial fill of the empty input the buffer
has EOF marked, and from then on `canAdvance()` is identically `true`
(`getAvailableAhead() > 0 || eof`), so the while condition
`!getState().isEOF || canAdvance()` stays true and `advance()` never
returns false, so no `break` fires: after any number of iterations, for
any registered processors and renderer, the loop is still running.  The
spec instead requires immediate termination in `DONE` with zero output
chunks, which is also what the repository's integration test
`should handle empty input gracefully` expects. -/
theorem c1_empty_input_never_terminates (n : Nat) (ps : List StreamProcessor)
    (r : StreamRenderer) :
    (iterateLoop ps r []
      (fillBufferStr [] (CircBuf.mkBuffer 512 2048)) n).isSome = true := by
  obtain ⟨t, hsome, _⟩ :=
    iterateLoop_alive_of_eof ps r [] (fillBufferStr [] (CircBuf.mkBuffer 512 2048)) rfl n
  rw [hsome]
  rfl

/-! ## Claim C7 -/

theorem advanceLoop_calls_le (n : Nat) (s : CircBuf) :
    (advanceLoop n s).2.1 ≤ n := by
  induction n generalizing s with
  | zero => simp [advanceLoop]
  | succ m ih =>
    simp only [advanceLoop]
    split_ifs
    · exact Nat.succ_le_succ (ih _)
    · simp

theorem advanceLoop_calls_pos (n : Nat) (s : CircBuf) (h : 1 ≤ n) :
    1 ≤ (advanceLoop n s).2.1 := by
  cases n with
  | zero => omega
  | succ m =>
    simp only [advanceLoop]
    split_ifs <;> simp

theorem advanceLoop_complete (n : Nat) (s : CircBuf)
    (h : (advanceLoop n s).2.2 = false) : (advanceLoop n s).2.1 = n := by
  induction n generalizing s with
  | zero => rfl
  | succ m ih =>
    simp only [advanceLoop] at h ⊢
    split_ifs at h ⊢ with hok
    rw [ih _ h]

theorem advanceLoop_stopped (n : Nat) (s : CircBuf)
    (h : (advanceLoop n s).2.2 = true) :
    CircBuf.canAdvance ((advanceLoop n s).1) = false := by
  induction n generalizing s with
  | zero => exact absurd h (by simp [advanceLoop])
  | succ m ih =>
    simp only [advanceLoop] at h ⊢
    split_ifs at h ⊢ with hok
    · exact ih _ h
    · have h2 : (CircBuf.advance s).2 = s := by
        unfold CircBuf.advance at hok ⊢
        split_ifs at hok ⊢ <;> simp_all
      have h3 : CircBuf.canAdvance s = false := by
        unfold CircBuf.advance at hok
        split_ifs at hok with hca
        · simp at hok
        · simpa using hca
      rw [h2]
      exact h3

theorem safeAdvance_pos (d : Int) : 1 ≤ safeAdvance d := by
  unfold safeAdvance
  have h : (1 : Int) ≤ max 1 d := le_max_left 1 d
  omega

/-- Claim C7: in a loop iteration where a processor is selected and
returns advance distance `d`, the loop runs the advance for-loop for
`max(1, d)` calls of `advance()` (at least one, so advance `0` or
negative never stalls the loop), the number of calls actually made is
`max(1, d)` unless a call returned false, and the for-loop exits early
only when the buffer reports it cannot advance. -/
theorem c7_no_stall (ps : List StreamProcessor) (r : StreamRenderer)
    (input : List Nat) (s : CircBuf) (p : StreamProcessor) (res : ProcessResult)
    (h1 : findProcessor ps s = some p) (h2 : p.process s = Except.ok res) :
    (loopIter ps r input s).2.1
        = refillStep input (advanceLoop (safeAdvance res.advance) s).1
    ∧ (loopIter ps r input s).2.2 = false
    ∧ 1 ≤ safeAdvance res.advance
    ∧ (advanceLoop (safeAdvance res.advance) s).2.1 ≤ safeAdvance res.advance
    ∧ 1 ≤ (advanceLoop (safeAdvance res.advance) s).2.1
    ∧ ((advanceLoop (safeAdvance res.advance) s).2.2 = false →
        (advanceLoop (safeAdvance res.advance) s).2.1 = safeAdvance res.advance)
    ∧ ((advanceLoop (safeAdvance res.advance) s).2.2 = true →
        CircBuf.canAdvance ((advanceLoop (safeAdvance res.advance) s).1) = false) := by
  refine ⟨?_, ?_, safeAdvance_pos res.advance, advanceLoop_calls_le _ s,
    advanceLoop_calls_pos _ s (safeAdvance_pos res.advance),
    advanceLoop_complete _ s, advanceLoop_stopped _ s⟩
  · simp [loopIter, h1, h2]
  · simp [loopIter, h1, h2]

/-- Witness for C7: a processor requesting advance `0` on a concrete
buffer; the loop still makes exactly one successful advance call.  A
second application at an empty, non-EOF buffer exercises the early-exit
conclusion: the for-loop stops because `advance()` reported failure. -/
theorem c7_no_stall_witness :
    (loopIter [⟨"zero", 1, fun _ => true, fun _ => Except.ok ⟨[], 0⟩⟩]
        ⟨"html", fun c => c.content⟩ []
        (CircBuf.markEOF (CircBuf.fill [1, 2, 3] (CircBuf.mkBuffer 1 1)))).2.2 = false
    ∧ (advanceLoop (safeAdvance 0)
        (CircBuf.markEOF (CircBuf.fill [1, 2, 3] (CircBuf.mkBuffer 1 1)))).2.1
        = safeAdvance 0
    ∧ CircBuf.canAdvance ((advanceLoop (safeAdvance 5) (CircBuf.mkBuffer 1 1)).1) = false := by
  refine ⟨?_, ?_, ?_⟩
  · exact (c7_no_stall [⟨"zero", 1, fun _ => true, fun _ => Except.ok ⟨[], 0⟩⟩]
      ⟨"html", fun c => c.content⟩ []
      (CircBuf.markEOF (CircBuf.fill [1, 2, 3] (CircBuf.mkBuffer 1 1)))
      _ ⟨[], 0⟩ rfl rfl).2.1
  · exact (c7_no_stall [⟨"zero", 1, fun _ => true, fun _ => Except.ok ⟨[], 0⟩⟩]
      ⟨"html", fun c => c.content⟩ []
      (CircBuf.markEOF (CircBuf.fill [1, 2, 3] (CircBuf.mkBuffer 1 1)))
      _ ⟨[], 0⟩ rfl rfl).2.2.2.2.2.1 (by decide)
  · exact (c7_no_stall [⟨"zero", 1, fun _ => true, fun _ => Except.ok ⟨[], 5⟩⟩]
      ⟨"html", fun c => c.content⟩ [] (CircBuf.mkBuffer 1 1)
      _ ⟨[], 5⟩ rfl rfl).2.2.2.2.2.2 (by decide)

/-! ## Claim C8 -/

/-- Claim C8: when the selected processor's `process` throws during an
iteration, the exception is not propagated: the iteration yields nothing,
forces exactly one `advance()` call, and only leaves the while loop if
that advance reported exhaustion; whenever the buffer can still advance,
the loop keeps running, and unfolding one whole-loop step shows that the
outputs of the remaining stream are exactly those produced from the
post-advance state — chunks at other positions are still emitted and the
stream as a whole never fails. -/
theorem c8_processor_error_recovery (ps : List StreamProcessor)
    (r : StreamRenderer) (input : List Nat) (s : CircBuf)
    (p : StreamProcessor) (e : String) (fuel : Nat)
    (h1 : findProcessor ps s = some p) (h2 : p.process s = Except.error e) :
    loopIter ps r input s = ([], (CircBuf.advance s).2, !(CircBuf.advance s).1)
    ∧ (CircBuf.canAdvance s = true → (loopIter ps r input s).2.2 = false)
    ∧ (CircBuf.canAdvance s = true →
        runLoop (fuel + 1) ps r input s
          = runLoop fuel ps r input (CircBuf.advance s).2) := by
  have hiter : loopIter ps r input s
      = ([], (CircBuf.advance s).2, !(CircBuf.advance s).1) := by
    simp [loopIter, h1, h2]
  have hfst : CircBuf.canAdvance s = true → (CircBuf.advance s).1 = true := by
    intro hca
    unfold CircBuf.advance
    rw [if_pos hca]
  refine ⟨hiter, fun hca => ?_, fun hca => ?_⟩
  · rw [hiter, hfst hca]
    rfl
  · have hcond : loopCond s = true := by
      unfold loopCond
      rw [hca, Bool.or_true]
    simp only [runLoop, hcond, if_true, hiter, hfst hca]
    simp

/-- Witness for C8: a processor that always throws, on a concrete buffer
that can still advance. -/
theorem c8_processor_error_recovery_witness :
    loopIter [⟨"boom", 10, fun _ => true, fun _ => Except.error "fail"⟩]
        ⟨"html", fun c => c.content⟩ []
        (CircBuf.markEOF (CircBuf.fill [1, 2, 3] (CircBuf.mkBuffer 1 1)))
      = ([], (CircBuf.advance
          (CircBuf.markEOF (CircBuf.fill [1, 2, 3] (CircBuf.mkBuffer 1 1)))).2,
          !(CircBuf.advance
          (CircBuf.markEOF (CircBuf.fill [1, 2, 3] (CircBuf.mkBuffer 1 1)))).1)
    ∧ (loopIter [⟨"boom", 10, fun _ => true, fun _ => Except.error "fail"⟩]
        ⟨"html", fun c => c.content⟩ []
        (CircBuf.markEOF (CircBuf.fill [1, 2, 3] (CircBuf.mkBuffer 1 1)))).2.2 = false
    ∧ runLoop 3 [⟨"boom", 10, fun _ => true, fun _ => Except.error "fail"⟩]
        ⟨"html", fun c => c.content⟩ []
        (CircBuf.markEOF (CircBuf.fill [1, 2, 3] (CircBuf.mkBuffer 1 1)))
      = runLoop 2 [⟨"boom", 10, fun _ => true, fun _ => Except.error "fail"⟩]
        ⟨"html", fun c => c.content⟩ []
        (CircBuf.advance
          (CircBuf.markEOF (CircBuf.fill [1, 2, 3] (CircBuf.mkBuffer 1 1)))).2 := by
  have h := c8_processor_error_recovery
    [⟨"boom", 10, fun _ => true, fun _ => Except.error "fail"⟩]
    ⟨"html", fun c => c.content⟩ []
    (CircBuf.markEOF (CircBuf.fill [1, 2, 3] (CircBuf.mkBuffer 1 1)))
    ⟨"boom", 10, fun _ => true, fun _ => Except.error "fail"⟩ "fail" 2 rfl rfl
  exact ⟨h.1, h.2.1 (by decide), h.2.2 (by decide)⟩

/-! ## Claim C9 -/

theorem lookup_setRenderer (rs : List (String × StreamRenderer))
    (r : StreamRenderer) : List.lookup r.format (setRenderer rs r) = some r := by
  induction rs with
  | nil => simp [setRenderer, List.lookup]
  | cons kv rest ih =>
    obtain ⟨k, v⟩ := kv
    unfold setRenderer
    split_ifs with hk
    · simp [List.lookup]
    · have hne : (r.format == k) = false := by
        simp only [beq_eq_false_iff_ne, ne_eq]
        exact fun hc => hk hc.symm
      simp [List.lookup, hne, ih]

/-- Claim C9: for every format with no registered renderer,
`processStream` fails with exactly
`No renderer found for format: <format>`, for every input alike — the
lookup happens before the buffer is created or filled and before anything
is yielded, so the resulting error value carries no outputs and does not
depend on the input.  For a format whose renderer is registered the call
returns the rendered output list and this error is never raised; a
renderer registered with `registerRenderer` is found under its format
key. -/
theorem c9_renderer_dispatch (rs : List (String × StreamRenderer))
    (format : String) (ps : List StreamProcessor) (input : List Nat)
    (B A fuel : Nat) (r : StreamRenderer) :
    (List.lookup format rs = none →
      processStream rs format ps input B A fuel
        = Except.error ("No renderer found for format: " ++ format))
    ∧ (List.lookup format rs = some r →
      processStream rs format ps input B A fuel
        = Except.ok (runLoop fuel ps r input
            (fillBufferStr input (CircBuf.mkBuffer B A))))
    ∧ List.lookup r.format (setRenderer rs r) = some r := by
  refine ⟨fun hnone => ?_, fun hsome => ?_, lookup_setRenderer rs r⟩
  · simp [processStream, getRenderer, hnone]
  · simp [processStream, getRenderer, hsome]

/-- Witness for C9: an empty renderer map fails with the exact error for
any input; after registering an html renderer the same call succeeds. -/
theorem c9_renderer_dispatch_witness :
    processStream [] "html" [] [7, 8, 9] 2 2 1
      = Except.error ("No renderer found for format: " ++ "html")
    ∧ processStream (setRenderer [] ⟨"html", fun c => c.content⟩) "html" [] [7, 8, 9] 2 2 1
      = Except.ok (runLoop 1 [] ⟨"html", fun c => c.content⟩ [7, 8, 9]
          (fillBufferStr [7, 8, 9] (CircBuf.mkBuffer 2 2)))
    ∧ List.lookup (StreamRenderer.format ⟨"html", fun c => c.content⟩)
        (setRenderer [] ⟨"html", fun c => c.content⟩)
      = some ⟨"html", fun c => c.content⟩ := by
  refine ⟨?_, ?_, ?_⟩
  · exact (c9_renderer_dispatch [] "html" [] [7, 8, 9] 2 2 1
      ⟨"html", fun c => c.content⟩).1 rfl
  · exact (c9_renderer_dispatch (setRenderer [] ⟨"html", fun c => c.content⟩)
      "html" [] [7, 8, 9] 2 2 1 ⟨"html", fun c => c.content⟩).2.1 rfl
  · exact (c9_renderer_dispatch [] "html" [] [7, 8, 9] 2 2 1
      ⟨"html", fun c => c.content⟩).2.2

/-! ## Claim C10 -/

theorem renderOutputs_eq_filter (r : StreamRenderer) (chunks : List Chunk) :
    renderOutputs r chunks
      = (chunks.map r.renderChunk).filter (fun o => !(o == "")) := by
  induction chunks with
  | nil => rfl
  | cons c rest ih =>
    by_cases h : r.renderChunk c = ""
    · simp [renderOutputs, List.filter_cons, h, ih]
    · simp [renderOutputs, List.filter_cons, h, ih]

/-- Claim C10: in an iteration whose processor returns chunks, the
iteration's yielded outputs are exactly the rendered chunk strings that
are truthy (non-empty), in emission order — a chunk whose rendered output
is the empty string is dropped — and the iteration does not break out of
the loop. -/
theorem c10_truthy_outputs (ps : List StreamProcessor) (r : StreamRenderer)
    (input : List Nat) (s : CircBuf) (p : StreamProcessor)
    (res : ProcessResult)
    (h1 : findProcessor ps s = some p) (h2 : p.process s = Except.ok res) :
    (loopIter ps r input s).1
      = (res.chunks.map r.renderChunk).filter (fun o => !(o == ""))
    ∧ (loopIter ps r input s).2.2 = false := by
  constructor
  · simp only [loopIter, h1, h2]
    exact renderOutputs_eq_filter r res.chunks
  · simp [loopIter, h1, h2]

/-- Witness for C10: a processor emitting three chunks whose renderings
are `"a"`, `""` and `"b"`; the iteration yields exactly `["a", "b"]`. -/
theorem c10_truthy_outputs_witness :
    (loopIter [⟨"three", 1, fun _ => true,
        fun _ => Except.ok ⟨[⟨"text", "a"⟩, ⟨"text", ""⟩, ⟨"text", "b"⟩], 1⟩⟩]
      ⟨"html", fun c => c.content⟩ []
      (CircBuf.markEOF (CircBuf.fill [1, 2, 3] (CircBuf.mkBuffer 1 1)))).1
      = ([⟨"text", "a"⟩, ⟨"text", ""⟩, ⟨"text", "b"⟩].map
          (StreamRenderer.renderChunk ⟨"html", fun c => c.content⟩)).filter
            (fun o => !(o == "")) := by
  exact (c10_truthy_outputs
    [⟨"three", 1, fun _ => true,
        fun _ => Except.ok ⟨[⟨"text", "a"⟩, ⟨"text", ""⟩, ⟨"text", "b"⟩], 1⟩⟩]
    ⟨"html", fun c => c.content⟩ []
    (CircBuf.markEOF (CircBuf.fill [1, 2, 3] (CircBuf.mkBuffer 1 1)))
    ⟨"three", 1, fun _ => true,
        fun _ => Except.ok ⟨[⟨"text", "a"⟩, ⟨"text", ""⟩, ⟨"text", "b"⟩], 1⟩⟩
    ⟨[⟨"text", "a"⟩, ⟨"text", ""⟩, ⟨"text", "b"⟩], 1⟩ rfl rfl).1

/-! ## Claim C5 -/

theorem behind_lt_len (t : CircBuf) (hc : t.current < t.len) (ht : t.tail < t.len) :
    CircBuf.getAvailableBehind t < t.len := by
  unfold CircBuf.getAvailableBehind
  split_ifs <;> omega

theorem autoCompact_buffer (t : CircBuf) :
    (CircBuf.autoCompact t).buffer = t.buffer := by
  simp only [CircBuf.autoCompact]
  split_ifs <;> rfl

theorem autoCompact_head (t : CircBuf) :
    (CircBuf.autoCompact t).head = t.head := by
  simp only [CircBuf.autoCompact]
  split_ifs <;> rfl

/-- After shifting the tail forward by the compaction excess, the distance
between tail and cursor is exactly the lookbehind bound. -/
theorem shiftedBehind (cur tl len B b : Nat) (hc : cur < len) (ht : tl < len)
    (_hm : B < len) (hblt : b < len) (hb : B < b)
    (hbeq : b = if tl ≤ cur then cur - tl else cur + (len - tl)) :
    (if (tl + (b - B)) % len ≤ cur then cur - (tl + (b - B)) % len
     else cur + (len - (tl + (b - B)) % len)) = B := by
  have hmod : (tl + (b - B)) % len
      = if tl + (b - B) < len then tl + (b - B) else tl + (b - B) - len :=
    mod_two_cases _ _ (by omega)
  rw [hmod]
  split_ifs at hbeq ⊢ <;> omega

theorem autoCompact_behind_le (t : CircBuf) (hc : t.current < t.len)
    (ht : t.tail < t.len) (hm : t.maxLookBehind < t.len) :
    CircBuf.getAvailableBehind (CircBuf.autoCompact t) ≤ t.maxLookBehind := by
  have hblt : CircBuf.getAvailableBehind t < t.len := behind_lt_len t hc ht
  simp only [CircBuf.autoCompact]
  split_ifs with hb
  · exact le_of_eq (shiftedBehind t.current t.tail t.len t.maxLookBehind
      (CircBuf.getAvailableBehind t) hc ht hm hblt hb rfl)
  · omega

/-- Every slot evicted by compaction lies strictly behind the cursor, at a
ring distance exceeding the lookbehind bound. -/
theorem droppedDist (cur tl len B b k : Nat) (_hc : cur < len) (ht : tl < len)
    (hblt : b < len) (hk : k < b - B)
    (hbeq : b = if tl ≤ cur then cur - tl else cur + (len - tl)) :
    B < (cur + len - (tl + k) % len) % len := by
  have h1 : (tl + k) % len = if tl + k < len then tl + k else tl + k - len :=
    mod_two_cases _ _ (by omega)
  rw [h1]
  split_ifs with h2
  · have h3 : (cur + len - (tl + k)) % len
        = if cur + len - (tl + k) < len then cur + len - (tl + k)
          else cur + len - (tl + k) - len := mod_two_cases _ _ (by omega)
    rw [h3]
    split_ifs at hbeq ⊢ <;> omega
  · have h3 : (cur + len - (tl + k - len)) % len
        = if cur + len - (tl + k - len) < len then cur + len - (tl + k - len)
          else cur + len - (tl + k - len) - len := mod_two_cases _ _ (by omega)
    rw [h3]
    split_ifs at hbeq ⊢ <;> omega

theorem droppedSlots_strictly_behind (t : CircBuf) (hc : t.current < t.len)
    (ht : t.tail < t.len) :
    (CircBuf.droppedSlots t).all
      (fun p => decide (t.maxLookBehind < CircBuf.behindDist t p)) = true := by
  rw [List.all_eq_true]
  intro x hx
  simp only [CircBuf.droppedSlots, List.mem_map, List.mem_range] at hx
  obtain ⟨k, hk, rfl⟩ := hx
  have hblt : CircBuf.getAvailableBehind t < t.len := behind_lt_len t hc ht
  have h9 : t.maxLookBehind < CircBuf.behindDist t ((t.tail + k) % t.len) :=
    droppedDist t.current t.tail t.len t.maxLookBehind
      (CircBuf.getAvailableBehind t) k hc ht hblt hk rfl
  exact decide_eq_true h9

theorem peek_congr (a b : CircBuf) (hbuf : a.buffer = b.buffer)
    (hcur : a.current = b.current) (hf : a.filled = 0 ↔ b.filled = 0) :
    CircBuf.peek a = CircBuf.peek b := by
  unfold CircBuf.peek
  by_cases h1 : a.filled = 0
  · rw [if_pos h1, if_pos (hf.mp h1)]
  · rw [if_neg h1, if_neg (fun hh => h1 (hf.mpr hh)), hbuf, hcur]

theorem getAvailableAhead_congr (a b : CircBuf) (hbuf : a.buffer = b.buffer)
    (hcur : a.current = b.current) (hhead : a.head = b.head)
    (hf : 0 < a.filled ↔ 0 < b.filled) :
    CircBuf.getAvailableAhead a = CircBuf.getAvailableAhead b := by
  unfold CircBuf.getAvailableAhead CircBuf.len
  rw [hbuf, hcur, hhead]
  simp only [propext hf]

theorem lookAheadFun_congr (a b : CircBuf) (hbuf : a.buffer = b.buffer)
    (hcur : a.current = b.current) (hmla : a.maxLookAhead = b.maxLookAhead)
    (hga : CircBuf.getAvailableAhead a = CircBuf.getAvailableAhead b) :
    CircBuf.lookAheadFun a = CircBuf.lookAheadFun b := by
  funext d
  unfold CircBuf.lookAheadFun CircBuf.lookAhead CircBuf.lookAheadIndices
    CircBuf.lookAheadCount CircBuf.len
  rw [hbuf, hcur, hmla, hga]

/-- When unconsumed data extends past the cursor (`behind < filled`),
compaction touches neither `peek` nor any `lookAhead` view. -/
theorem autoCompact_views (t : CircBuf)
    (hbf : (CircBuf.getAvailableBehind t : Int) < t.filled) :
    CircBuf.peek (CircBuf.autoCompact t) = CircBuf.peek t
    ∧ CircBuf.lookAheadFun (CircBuf.autoCompact t) = CircBuf.lookAheadFun t := by
  simp only [CircBuf.autoCompact]
  split_ifs with hb
  · have hf0 : ¬ t.filled = 0 := by omega
    have hf1 : ¬ t.filled - ((CircBuf.getAvailableBehind t : Int)
        - (t.maxLookBehind : Int)) = 0 := by omega
    constructor
    · exact peek_congr _ _ rfl rfl ⟨fun hh => absurd hh hf1, fun hh => absurd hh hf0⟩
    · have hp1 : (0 : Int) < t.filled := by omega
      have hp2 : (0 : Int) < t.filled - ((CircBuf.getAvailableBehind t : Int)
          - (t.maxLookBehind : Int)) := by omega
      exact lookAheadFun_congr _ _ rfl rfl rfl
        (getAvailableAhead_congr _ _ rfl rfl rfl ⟨fun _ => hp1, fun _ => hp2⟩)
  · exact ⟨rfl, rfl⟩

/-- Claim C5: after every successful `advance()` on a buffer whose cursors
are in range and whose storage has the constructed size, at most
`maxLookBehind` bytes of history precede the cursor; the advance-plus-
compaction step never touches the stored bytes or the write head; every
slot the compaction evicts lies strictly behind the new cursor, beyond
the lookbehind bound; and whenever unconsumed data remains at the cursor
(`behind < filled` after the move), `peek` and every `lookAhead` view are
exactly what they were before the compaction step — no not-yet-consumed
data is lost. -/
theorem c5_advance_compaction (s : CircBuf)
    (hlen : s.len = s.maxLookBehind + 1 + s.maxLookAhead)
    (ht : s.tail < s.len)
    (hadv : (CircBuf.advance s).1 = true) :
    CircBuf.getAvailableBehind (CircBuf.advance s).2 ≤ s.maxLookBehind
    ∧ (CircBuf.advance s).2.buffer = s.buffer
    ∧ (CircBuf.advance s).2.head = s.head
    ∧ (CircBuf.droppedSlots (CircBuf.moveCursor s)).all
        (fun p => decide (s.maxLookBehind
          < CircBuf.behindDist (CircBuf.moveCursor s) p)) = true
    ∧ ((CircBuf.getAvailableBehind (CircBuf.moveCursor s) : Int) < s.filled →
        CircBuf.peek (CircBuf.advance s).2 = CircBuf.peek (CircBuf.moveCursor s)
        ∧ CircBuf.lookAheadFun (CircBuf.advance s).2
            = CircBuf.lookAheadFun (CircBuf.moveCursor s)) := by
  have hlen0 : 0 < s.len := by omega
  have hadv2 : (CircBuf.advance s).2 = CircBuf.autoCompact (CircBuf.moveCursor s) := by
    unfold CircBuf.advance at hadv ⊢
    split_ifs at hadv ⊢
    rfl
  have hmc : (CircBuf.moveCursor s).current < (CircBuf.moveCursor s).len :=
    Nat.mod_lt _ hlen0
  have hmt : (CircBuf.moveCursor s).tail < (CircBuf.moveCursor s).len := ht
  have hmm : (CircBuf.moveCursor s).maxLookBehind < (CircBuf.moveCursor s).len := by
    show s.maxLookBehind < s.len
    omega
  rw [hadv2]
  refine ⟨autoCompact_behind_le (CircBuf.moveCursor s) hmc hmt hmm,
    by rw [autoCompact_buffer]; rfl, by rw [autoCompact_head]; rfl,
    droppedSlots_strictly_behind (CircBuf.moveCursor s) hmc hmt,
    fun hbf => autoCompact_views (CircBuf.moveCursor s) hbf⟩

/-- Witness for C5: advancing a concrete `(1, 1)` buffer holding three
bytes from cursor `1`; the move makes the lookbehind distance `2 > 1`, so
compaction fires and drops exactly one slot. -/
theorem c5_advance_compaction_witness :
    CircBuf.getAvailableBehind
        (CircBuf.advance
          ((CircBuf.advance (CircBuf.markEOF (CircBuf.fill [1, 2, 3] (CircBuf.mkBuffer 1 1)))).2)).2
      ≤ ((CircBuf.advance (CircBuf.markEOF (CircBuf.fill [1, 2, 3] (CircBuf.mkBuffer 1 1)))).2).maxLookBehind
    ∧ (CircBuf.advance
        ((CircBuf.advance (CircBuf.markEOF (CircBuf.fill [1, 2, 3] (CircBuf.mkBuffer 1 1)))).2)).2.buffer
      = ((CircBuf.advance (CircBuf.markEOF (CircBuf.fill [1, 2, 3] (CircBuf.mkBuffer 1 1)))).2).buffer
    ∧ (CircBuf.advance
        ((CircBuf.advance (CircBuf.markEOF (CircBuf.fill [1, 2, 3] (CircBuf.mkBuffer 1 1)))).2)).2.head
      = ((CircBuf.advance (CircBuf.markEOF (CircBuf.fill [1, 2, 3] (CircBuf.mkBuffer 1 1)))).2).head
    ∧ (CircBuf.droppedSlots (CircBuf.moveCursor
        ((CircBuf.advance (CircBuf.markEOF (CircBuf.fill [1, 2, 3] (CircBuf.mkBuffer 1 1)))).2))).all
        (fun p => decide (((CircBuf.advance (CircBuf.markEOF (CircBuf.fill [1, 2, 3] (CircBuf.mkBuffer 1 1)))).2).maxLookBehind
          < CircBuf.behindDist (CircBuf.moveCursor
              ((CircBuf.advance (CircBuf.markEOF (CircBuf.fill [1, 2, 3] (CircBuf.mkBuffer 1 1)))).2)) p)) = true
    ∧ (CircBuf.peek (CircBuf.advance
          ((CircBuf.advance (CircBuf.markEOF (CircBuf.fill [1, 2, 3] (CircBuf.mkBuffer 1 1)))).2)).2
        = CircBuf.peek (CircBuf.moveCursor
          ((CircBuf.advance (CircBuf.markEOF (CircBuf.fill [1, 2, 3] (CircBuf.mkBuffer 1 1)))).2))
      ∧ CircBuf.lookAheadFun (CircBuf.advance
          ((CircBuf.advance (CircBuf.markEOF (CircBuf.fill [1, 2, 3] (CircBuf.mkBuffer 1 1)))).2)).2
        = CircBuf.lookAheadFun (CircBuf.moveCursor
          ((CircBuf.advance (CircBuf.markEOF (CircBuf.fill [1, 2, 3] (CircBuf.mkBuffer 1 1)))).2))) := by
  have h := c5_advance_compaction
    ((CircBuf.advance (CircBuf.markEOF (CircBuf.fill [1, 2, 3] (CircBuf.mkBuffer 1 1)))).2)
    (by decide) (by decide) (by decide)
  exact ⟨h.1, h.2.1, h.2.2.1, h.2.2.2.1, h.2.2.2.2 (by decide)⟩
